import Mathlib

/-!
Verification of the LitePolis default router (`litepolis_router_default/core.py`)
against its natural-language specification.

The router is CRUD glue between HTTP handlers and an external persistence
actor (`DatabaseActor` from `litepolis_database_default`).  We shallowly embed
the handlers as pure Lean functions over an explicit database state
(`DBState`): a handler takes the state and the request parameters and returns
an `Except HttpError` result paired with the post-state.  Raising
`HTTPException(status_code, detail)` in the Python source corresponds to
returning `Except.error ⟨status_code, detail⟩` together with an unchanged
state.

The persistence actor itself is out of scope of the repository (the spec
declares persistence an external collaborator accessed through plain
create/read/update/delete/list operations), so its operations are modelled
with the evident CRUD semantics over in-memory lists: `find?` for reads,
`map` for in-place updates, append with a fresh id for creates.
-/

namespace LitePolis

/-- A user row of the external store.  Fields mirror the attributes of the
`DatabaseActor` user object read by `core.py` (`id`, `email`, `auth_token`,
`hname`, `is_admin`). -/
structure User where
  id : Nat
  email : String
  auth_token : String
  hname : Option String
  is_admin : Bool
deriving DecidableEq, Repr

/-- A conversation row (`id`, `title`, `description`, `user_id`,
`is_archived`), as read by `core.py`. -/
structure Conversation where
  id : Nat
  title : String
  description : Option String
  user_id : Nat
  is_archived : Bool
deriving DecidableEq, Repr

/-- A participant row (`pid`, `zid`, `uid`, `vote_count`). -/
structure Participant where
  pid : Nat
  zid : Nat
  uid : Nat
  vote_count : Nat
deriving DecidableEq, Repr

/-- A vote row (`id`, `user_id`, `comment_id`, `value`). -/
structure Vote where
  id : Nat
  user_id : Nat
  comment_id : Nat
  value : Int
deriving DecidableEq, Repr

/-- The state of the external persistence actor, as far as the handlers under
verification read or write it.  `zinvites` maps the public conversation id
(the zinvite string) to the internal `zid`.  The `next…` counters model the
store's fresh-id generators. -/
structure DBState where
  users : List User
  conversations : List Conversation
  zinvites : List (String × Nat)
  participants : List Participant
  votes : List Vote
  nextUserId : Nat
  nextPid : Nat
  nextVoteId : Nat
deriving DecidableEq, Repr

/-- An `HTTPException(status_code, detail)` raised by a handler. -/
structure HttpError where
  status_code : Nat
  detail : String
deriving DecidableEq, Repr

/-- Model of `DatabaseActor.get_zid_by_zinvite`: resolve a public
conversation id to the internal zid. -/
def get_zid_by_zinvite (s : DBState) (conversation_id : String) : Option Nat :=
  (s.zinvites.find? (fun e => e.1 == conversation_id)).map (fun e => e.2)

/-- Model of `DatabaseActor.read_user`. -/
def read_user (s : DBState) (uid : Nat) : Option User :=
  s.users.find? (fun u => u.id == uid)

/-- Model of `DatabaseActor.read_user_by_email`. -/
def read_user_by_email (s : DBState) (email : String) : Option User :=
  s.users.find? (fun u => u.email == email)

/-- Model of `DatabaseActor.get_participant_by_zid_uid`. -/
def get_participant_by_zid_uid (s : DBState) (zid uid : Nat) : Option Participant :=
  s.participants.find? (fun p => p.zid == zid && p.uid == uid)

/-- Model of `DatabaseActor.get_or_create_participant`: return the existing
participant for `(zid, uid)` or create one with a fresh pid and
`vote_count = 0`. -/
def get_or_create_participant (s : DBState) (zid uid : Nat) : Participant × DBState :=
  match get_participant_by_zid_uid s zid uid with
  | some p => (p, s)
  | none =>
      let p : Participant := ⟨s.nextPid, zid, uid, 0⟩
      (p, { s with participants := s.participants ++ [p], nextPid := s.nextPid + 1 })

/-- Model of `DatabaseActor.get_vote_by_user_comment`. -/
def get_vote_by_user_comment (s : DBState) (uid tid : Nat) : Option Vote :=
  s.votes.find? (fun v => v.user_id == uid && v.comment_id == tid)

/-- Model of `DatabaseActor.update_vote(vid, {"value": value})`: set the value
of the vote row with id `vid` in place and return the updated row.  The
caller (`create_vote` in `core.py`) only invokes it with the id of a row it
just read, so the fallback row of the `none` branch is unreachable there. -/
def db_update_vote (s : DBState) (vid : Nat) (value : Int) : Vote × DBState :=
  let newVotes := s.votes.map (fun v => if v.id == vid then { v with value := value } else v)
  let updated := match newVotes.find? (fun v => v.id == vid) with
    | some v => v
    | none => ⟨vid, 0, 0, value⟩
  (updated, { s with votes := newVotes })

/-- Model of `DatabaseActor.create_vote({"user_id": …, "comment_id": …,
"value": …})`: append a new vote row with a fresh id. -/
def db_create_vote (s : DBState) (uid tid : Nat) (value : Int) : Vote × DBState :=
  let v : Vote := ⟨s.nextVoteId, uid, tid, value⟩
  (v, { s with votes := s.votes ++ [v], nextVoteId := s.nextVoteId + 1 })

/-- Model of `DatabaseActor.increment_vote_count(pid)`. -/
def increment_vote_count (s : DBState) (pid : Nat) : DBState :=
  let bump := fun p : Participant =>
    if p.pid == pid then { p with vote_count := p.vote_count + 1 } else p
  { s with participants := s.participants.map bump }

/-- Model of `DatabaseActor.create_user({"email": …, "auth_token": …})`:
append a new user row with a fresh id.  Columns not present in the record
(`hname`, `is_admin`) keep their store defaults. -/
def db_create_user (s : DBState) (email auth_token : String) : User × DBState :=
  let u : User := ⟨s.nextUserId, email, auth_token, none, false⟩
  (u, { s with users := s.users ++ [u], nextUserId := s.nextUserId + 1 })

/-! ## The vote handler (`POST /votes`, `create_vote`, core.py 984-1035) -/

/-- The response body built by `create_vote` on success
(`{"vid": …, "pid": …, "tid": …, "vote": …}`). -/
structure VoteOut where
  vid : Nat
  pid : Nat
  tid : Nat
  vote : Int
deriving DecidableEq, Repr

/-- Embedding of the handler `create_vote` (core.py 984-1035): validate the
vote value, resolve the conversation, ensure a participant, then either
update the existing vote of `(user, comment)` in place or create a new vote
and increment the participant's vote count. -/
def create_vote_route (s : DBState) (uid : Nat) (conversation_id : String)
    (tid : Nat) (vote : Int) : Except HttpError VoteOut × DBState :=
  if !(vote == -1 || vote == 0 || vote == 1) then
    (.error ⟨400, "Vote must be -1, 0, or 1"⟩, s)
  else
    match get_zid_by_zinvite s conversation_id with
    | none => (.error ⟨404, "Conversation not found"⟩, s)
    | some zid =>
      let pr := get_or_create_participant s zid uid
      match get_vote_by_user_comment pr.2 uid tid with
      | some existing =>
          let ur := db_update_vote pr.2 existing.id vote
          (.ok ⟨ur.1.id, pr.1.pid, tid, ur.1.value⟩, ur.2)
      | none =>
          let cr := db_create_vote pr.2 uid tid vote
          let s3 := increment_vote_count cr.2 pr.1.pid
          (.ok ⟨cr.1.id, pr.1.pid, tid, cr.1.value⟩, s3)

/-! ## The math endpoints (`GET /math/pca`, `GET /math/pca2`, core.py 1137-1179) -/

/-- The payload shape of `GET /math/pca`: projections are lists of 2-D
points, `baseCluster` a list of clusters (participant-id lists).  The stub
only ever produces empty lists, so the element types are the advertised
shapes from the spec. -/
structure PcaData where
  commentProjection : List (ℚ × ℚ)
  ptptotProjection : List (ℚ × ℚ)
  baseCluster : List (List Nat)
  groupAware : Bool
deriving DecidableEq, Repr

/-- The inner `pca` object of the `GET /math/pca2` payload. -/
structure Pca2Inner where
  commentProjection : List (ℚ × ℚ)
  ptptotProjection : List (ℚ × ℚ)
  baseClusters : List (List Nat)
deriving DecidableEq, Repr

/-- The payload of `GET /math/pca2`. -/
structure Pca2Data where
  pca : Pca2Inner
deriving DecidableEq, Repr

/-- Embedding of the handler `get_pca` (core.py 1137-1156): resolve the
conversation (404 if unknown) and return the constant empty stub payload.
The handler performs no writes, so no post-state is returned. -/
def get_pca (s : DBState) (conversation_id : String) : Except HttpError PcaData :=
  match get_zid_by_zinvite s conversation_id with
  | none => .error ⟨404, "Conversation not found"⟩
  | some _ => .ok ⟨[], [], [], false⟩

/-- Embedding of the handler `get_pca2` (core.py 1159-1179). -/
def get_pca2 (s : DBState) (conversation_id : String) : Except HttpError Pca2Data :=
  match get_zid_by_zinvite s conversation_id with
  | none => .error ⟨404, "Conversation not found"⟩
  | some _ => .ok ⟨⟨[], [], []⟩⟩

/-! ## Authentication helpers (core.py 174-231) -/

/-- Truthiness of an optional Python string: `None` and the empty string are
falsy. -/
def pyTruthyStr : Option String → Bool
  | none => false
  | some s => !(s == "")

/-- Truthiness of an optional Python int: `None` and `0` are falsy. -/
def pyTruthyInt : Option Int → Bool
  | none => false
  | some n => !(n == 0)

/-- Python `a or b` on optional strings: `a` when truthy, else `b`. -/
def pyOr (a b : Option String) : Option String :=
  if pyTruthyStr a then a else b

/-- Embedding of `verify_token` (core.py 180-183): the MVP ignores the token
and returns uid 1 unconditionally. -/
def verify_token (_token : String) : Option Int :=
  some 1

/-- The dictionary `{"uid": …, "email": …, "is_admin": …}` returned by
`get_current_user`. -/
structure AuthUser where
  uid : Nat
  email : String
  is_admin : Bool
deriving DecidableEq, Repr

/-- The user dictionary built from a user row. -/
def userDict (u : User) : AuthUser :=
  ⟨u.id, u.email, u.is_admin⟩

/-- Python `s.startswith(pre)`, modelled over the character list (Python
slices strings by code point) so that it evaluates in the kernel. -/
def pyStartsWith (s pre : String) : Bool :=
  pre.toList.isPrefixOf s.toList

/-- Python `s[n:]`. -/
def pyDrop (s : String) (n : Nat) : String :=
  ⟨s.toList.drop n⟩

/-- The token extraction of `get_current_user` (core.py 195-198): a Bearer
authorization header wins, else the `token2` cookie. -/
def extractToken (authorization token2 : Option String) : Option String :=
  if pyTruthyStr authorization && pyStartsWith (authorization.getD "") "Bearer " then
    some (pyDrop (authorization.getD "") 7)
  else if pyTruthyStr token2 then token2
  else none

/-- The `uid2` cookie parse of `get_current_user` (core.py 200-204).  Python
`int(uid2)` inside try/except is modelled by `String.toInt?`; a parse failure
leaves the uid unset. -/
def parseUid (uid2 : Option String) : Option Int :=
  match uid2 with
  | none => none
  | some s => s.toInt?

/-- The MVP fallback of `get_current_user` (core.py 215-219): return user 1
when it exists. -/
def fallbackUser (s : DBState) : Option AuthUser :=
  (read_user s 1).map userDict

/-- Embedding of `get_current_user` (core.py 186-219): extract a token from
the Bearer header or the `token2` cookie; with no (or an empty) token return
`none`; otherwise look the `uid2` cookie up and fall back to user 1. -/
def get_current_user (s : DBState) (authorization token2 uid2 : Option String) :
    Option AuthUser :=
  let token := extractToken authorization token2
  let uid := parseUid uid2
  if !(pyTruthyStr token) then none
  else if pyTruthyInt uid then
    match s.users.find? (fun u => (u.id : Int) == uid.getD 0) with
    | some u => some (userDict u)
    | none => fallbackUser s
  else fallbackUser s

/-! ## Registration (`POST /auth/new`, `register_user`, core.py 271-315) -/

/-- The success payload of `POST /auth/new` (token, user id and the `data`
object). -/
structure RegisterOut where
  token : String
  user_id : Nat
  uid : Nat
  email : String
deriving DecidableEq, Repr

/-- Embedding of the handler `register_user` (core.py 271-315).  The SHA-256
password hash (`hashlib.sha256`) and the session token builder
(`create_token`, which mixes in the current time) are external effects and
are taken as function parameters `hash` and `mkToken`.  The handler reads
`request.name or request.hname` into a local that it never stores, exactly as
the source does. -/
def register_user (hash : String → String) (mkToken : Nat → String → String)
    (s : DBState) (email password : String) (name hname : Option String) :
    Except HttpError RegisterOut × DBState :=
  if !(pyTruthyStr (some email)) || !(pyTruthyStr (some password)) then
    (.error ⟨400, "Email and password required"⟩, s)
  else
    match read_user_by_email s email with
    | some _ => (.error ⟨409, "Email already registered"⟩, s)
    | none =>
      let _user_name := pyOr name hname
      let password_hash := hash password
      let cr := db_create_user s email password_hash
      let token := mkToken cr.1.id cr.1.email
      (.ok ⟨token, cr.1.id, cr.1.id, cr.1.email⟩, cr.2)

/-! ## Concrete stores used by the witnesses -/

/-- A small concrete store: one user, one conversation (zid 7) reachable
under the zinvite "conv1", one participant, and no votes. -/
def sampleDB : DBState :=
  { users := [⟨1, "alice@example.com", "hash1", none, false⟩],
    conversations := [⟨7, "Topic", none, 1, false⟩],
    zinvites := [("conv1", 7)],
    participants := [⟨1, 7, 1, 0⟩],
    votes := [],
    nextUserId := 2,
    nextPid := 2,
    nextVoteId := 1 }

/-- The store after user 1 has voted +1 on comment 42. -/
def sampleVotedDB : DBState :=
  { sampleDB with
    votes := [⟨1, 1, 42, 1⟩],
    participants := [⟨1, 7, 1, 1⟩],
    nextVoteId := 2 }

/-! ## Claim theorems -/

/-- C1: for every existing conversation (a `conversation_id` resolving to a
zid), `GET /math/pca` answers status ok with data exactly
`{commentProjection: [], ptptotProjection: [], baseCluster: [], groupAware:
false}` and `GET /math/pca2` answers status ok with data exactly
`{pca: {commentProjection: [], ptptotProjection: [], baseClusters: []}}`:
the endpoints are stubs of the advertised shape and perform no
computation. -/
theorem pca_endpoints_return_empty_stub (s : DBState) (cid : String) (zid : Nat)
    (h : get_zid_by_zinvite s cid = some zid) :
    get_pca s cid = .ok ⟨[], [], [], false⟩ ∧
    get_pca2 s cid = .ok ⟨⟨[], [], []⟩⟩ := by
  constructor <;> simp [get_pca, get_pca2, h]

/-- Witness for C1 at the concrete store `sampleDB`. -/
theorem pca_endpoints_return_empty_stub_witness :
    get_pca sampleDB "conv1" = .ok ⟨[], [], [], false⟩ ∧
    get_pca2 sampleDB "conv1" = .ok ⟨⟨[], [], []⟩⟩ :=
  pca_endpoints_return_empty_stub sampleDB "conv1" 7 (by decide)

/-- C2: a `POST /votes` request with a (well-formed) vote for a
`conversation_id` that resolves to no conversation fails with HTTP 404
("Conversation not found") and leaves the store untouched: the returned
state is exactly the input state, so no vote is created or updated and no
participant vote count is incremented.  `GET /math/pca` surfaces the same
404 for an unknown conversation. -/
theorem vote_unknown_conversation_404 (s : DBState) (uid : Nat) (cid : String)
    (tid : Nat) (v : Int) (hv : v = -1 ∨ v = 0 ∨ v = 1)
    (h : get_zid_by_zinvite s cid = none) :
    create_vote_route s uid cid tid v = (.error ⟨404, "Conversation not found"⟩, s) ∧
    get_pca s cid = .error ⟨404, "Conversation not found"⟩ := by
  have hb : (v == -1 || v == 0 || v == 1) = true := by
    rcases hv with rfl | rfl | rfl <;> rfl
  constructor
  · simp [create_vote_route, hb, h]
  · simp [get_pca, h]

/-- Witness for C2: voting at an unknown conversation id on `sampleDB`. -/
theorem vote_unknown_conversation_404_witness :
    create_vote_route sampleDB 1 "missing" 42 1
      = (.error ⟨404, "Conversation not found"⟩, sampleDB) ∧
    get_pca sampleDB "missing" = .error ⟨404, "Conversation not found"⟩ :=
  vote_unknown_conversation_404 sampleDB 1 "missing" 42 1 (Or.inr (Or.inr rfl))
    (by decide)

/-- C7: a vote value outside `{-1, 0, 1}` is rejected with HTTP 400
("Vote must be -1, 0, or 1") before the conversation is resolved: the
handler returns the error and the untouched input state for every store,
whether or not the conversation exists, so no vote is created or updated and
no participant is created. -/
theorem invalid_vote_rejected_400 (s : DBState) (uid : Nat) (cid : String)
    (tid : Nat) (v : Int) (hv : ¬(v = -1 ∨ v = 0 ∨ v = 1)) :
    create_vote_route s uid cid tid v = (.error ⟨400, "Vote must be -1, 0, or 1"⟩, s) := by
  push_neg at hv
  have hb : (v == -1 || v == 0 || v == 1) = false := by
    simp only [Bool.or_eq_false_iff, beq_eq_false_iff_ne, ne_eq]
    exact ⟨⟨hv.1, hv.2.1⟩, hv.2.2⟩
  simp [create_vote_route, hb]

/-- Witness for C7: vote value 5 on the existing conversation of
`sampleDB`. -/
theorem invalid_vote_rejected_400_witness :
    create_vote_route sampleDB 1 "conv1" 42 5
      = (.error ⟨400, "Vote must be -1, 0, or 1"⟩, sampleDB) :=
  invalid_vote_rejected_400 sampleDB 1 "conv1" 42 5 (by decide)

/-- C8: the math endpoints are deterministic.  For any two store states in
which the conversation resolves — in particular for the same state twice —
`GET /math/pca` and `GET /math/pca2` produce identical payloads, so repeated
calls on an identical snapshot return identical results. -/
theorem pca_deterministic (s1 s2 : DBState) (cid : String) (z1 z2 : Nat)
    (h1 : get_zid_by_zinvite s1 cid = some z1)
    (h2 : get_zid_by_zinvite s2 cid = some z2) :
    get_pca s1 cid = get_pca s2 cid ∧ get_pca2 s1 cid = get_pca2 s2 cid := by
  constructor <;> simp [get_pca, get_pca2, h1, h2]

/-- Witness for C8: the two stub payloads agree across the vote recorded
between `sampleDB` and `sampleVotedDB`. -/
theorem pca_deterministic_witness :
    get_pca sampleDB "conv1" = get_pca sampleVotedDB "conv1" ∧
    get_pca2 sampleDB "conv1" = get_pca2 sampleVotedDB "conv1" :=
  pca_deterministic sampleDB sampleVotedDB "conv1" 7 7 (by decide) (by decide)

/-- C9 (counterexample): at the concrete conversation of `sampleDB`, which
has zero votes, `GET /math/pca` answers with an empty `baseCluster` list —
zero clusters — and not with a single empty cluster as the claim states. -/
theorem zero_vote_pca_counterexample :
    (∃ d, get_pca sampleDB "conv1" = .ok d ∧ d.baseCluster = []) ∧
    ¬(∃ d, get_pca sampleDB "conv1" = .ok d ∧ d.baseCluster.length = 1) := by
  have h : get_pca sampleDB "conv1" = .ok ⟨[], [], [], false⟩ := rfl
  constructor
  · exact ⟨⟨[], [], [], false⟩, h, rfl⟩
  · rintro ⟨d, hd, hlen⟩
    rw [h] at hd
    cases hd
    simp at hlen

/-- C9 (amended): for every existing conversation in a store with no votes,
`GET /math/pca` raises no exception and returns the degenerate result: empty
projections and an empty cluster list (zero clusters, rather than a single
empty cluster). -/
theorem zero_vote_pca_empty_result (s : DBState) (cid : String) (zid : Nat)
    (h : get_zid_by_zinvite s cid = some zid) (_hnv : s.votes = []) :
    get_pca s cid = .ok ⟨[], [], [], false⟩ := by
  simp [get_pca, h]

/-- Witness for the amended C9 at the zero-vote store `sampleDB`. -/
theorem zero_vote_pca_empty_result_witness :
    get_pca sampleDB "conv1" = .ok ⟨[], [], [], false⟩ :=
  zero_vote_pca_empty_result sampleDB "conv1" 7 (by decide) rfl

/-- C6: the authentication outcome is independent of the credential's value.
`verify_token` answers uid 1 for every input token; two `get_current_user`
requests that differ only in the (non-empty) token string produce the same
identity; and with no valid `uid2` cookie the identity is user 1's whenever
user 1 exists. -/
theorem auth_independent_of_token_value :
    (∀ t, verify_token t = some 1) ∧
    (∀ s a1 t1 a2 t2 u2,
        pyTruthyStr (extractToken a1 t1) = true →
        pyTruthyStr (extractToken a2 t2) = true →
        get_current_user s a1 t1 u2 = get_current_user s a2 t2 u2) ∧
    (∀ s a t u2 u1,
        pyTruthyStr (extractToken a t) = true →
        pyTruthyInt (parseUid u2) = false →
        read_user s 1 = some u1 →
        get_current_user s a t u2 = some (userDict u1)) := by
  refine ⟨fun _ => rfl, ?_, ?_⟩
  · intro s a1 t1 a2 t2 u2 h1 h2
    simp [get_current_user, h1, h2]
  · intro s a t u2 u1 h1 h2 h3
    simp [get_current_user, h1, h2, fallbackUser, h3]

/-- Witness for C6 on `sampleDB`: two different bearer tokens, no `uid2`
cookie; both authenticate as user 1. -/
theorem auth_independent_of_token_value_witness :
    verify_token "any-token-at-all" = some 1 ∧
    get_current_user sampleDB (some "Bearer aaaa") none none
      = get_current_user sampleDB (some "Bearer bbbb") none none ∧
    get_current_user sampleDB (some "Bearer aaaa") none none
      = some ⟨1, "alice@example.com", false⟩ :=
  ⟨auth_independent_of_token_value.1 "any-token-at-all",
   auth_independent_of_token_value.2.1 sampleDB (some "Bearer aaaa") none
     (some "Bearer bbbb") none none rfl rfl,
   auth_independent_of_token_value.2.2 sampleDB (some "Bearer aaaa") none none
     ⟨1, "alice@example.com", "hash1", none, false⟩ rfl rfl rfl⟩

/-- C10: `POST /auth/new` discards the supplied display name.  The handler's
outcome is the same for every `name`/`hname` pair, and on success the row
handed to the persistence layer carries exactly the email and the hash of
the password, with the remaining columns (`hname`, `is_admin`) at their
store defaults. -/
theorem register_discards_display_name (hash : String → String)
    (mkToken : Nat → String → String) (s : DBState) (email password : String)
    (n1 h1 n2 h2 : Option String) :
    register_user hash mkToken s email password n1 h1
      = register_user hash mkToken s email password n2 h2 ∧
    (email ≠ "" → password ≠ "" → read_user_by_email s email = none →
      register_user hash mkToken s email password n1 h1
        = (.ok ⟨mkToken s.nextUserId email, s.nextUserId, s.nextUserId, email⟩,
           { s with
             users := s.users ++ [⟨s.nextUserId, email, hash password, none, false⟩],
             nextUserId := s.nextUserId + 1 })) := by
  constructor
  · rfl
  · intro he hp hnone
    simp [register_user, pyTruthyStr, he, hp, hnone, db_create_user]

/-- Witness for C10: registering a fresh email on `sampleDB` stores only the
email and hashed password, for an arbitrary concrete hash and token maker
and a supplied display name that is dropped. -/
theorem register_discards_display_name_witness :
    register_user (fun p => "sha256:" ++ p) (fun _ _ => "tok") sampleDB
        "bob@example.com" "pw" (some "Bob") none
      = register_user (fun p => "sha256:" ++ p) (fun _ _ => "tok") sampleDB
        "bob@example.com" "pw" none (some "Bobby") ∧
    register_user (fun p => "sha256:" ++ p) (fun _ _ => "tok") sampleDB
        "bob@example.com" "pw" (some "Bob") none
      = (.ok ⟨"tok", 2, 2, "bob@example.com"⟩,
         { sampleDB with
           users := sampleDB.users ++ [⟨2, "bob@example.com", "sha256:pw", none, false⟩],
           nextUserId := 3 }) := by
  have h := register_discards_display_name (fun p => "sha256:" ++ p) (fun _ _ => "tok")
    sampleDB "bob@example.com" "pw" (some "Bob") none none (some "Bobby")
  exact ⟨h.1, h.2 (by decide) (by decide) (by decide)⟩

/-! ## Helper lemmas about the store operations -/

/-- Creating or fetching a participant leaves the vote table alone. -/
lemma get_or_create_participant_votes (s : DBState) (zid uid : Nat) :
    (get_or_create_participant s zid uid).2.votes = s.votes := by
  cases hp : get_participant_by_zid_uid s zid uid <;>
    simp [get_or_create_participant, hp]

/-- Creating or fetching a participant leaves the zinvite table and the vote
id counter alone. -/
lemma get_or_create_participant_zinvites (s : DBState) (zid uid : Nat) :
    (get_or_create_participant s zid uid).2.zinvites = s.zinvites ∧
    (get_or_create_participant s zid uid).2.nextVoteId = s.nextVoteId := by
  cases hp : get_participant_by_zid_uid s zid uid <;>
    simp [get_or_create_participant, hp]

/-- The vote lookup reads only the vote table. -/
lemma get_vote_of_votes_eq {s t : DBState} (h : s.votes = t.votes) (uid tid : Nat) :
    get_vote_by_user_comment s uid tid = get_vote_by_user_comment t uid tid := by
  unfold get_vote_by_user_comment
  rw [h]

/-- In the vote table updated at id `vid`, the lookup by `vid` finds a row
with that id carrying the new value. -/
lemma find_updated_vote (l : List Vote) (vid : Nat) (val : Int)
    (hmem : ∃ x ∈ l, x.id = vid) :
    ∃ w, (l.map (fun v => if v.id == vid then { v with value := val } else v)).find?
        (fun v => v.id == vid) = some w ∧ w.id = vid ∧ w.value = val := by
  induction l with
  | nil => simp at hmem
  | cons x xs ih =>
    by_cases hx : x.id = vid
    · refine ⟨{ x with value := val }, ?_, hx, rfl⟩
      simp [hx]
    · obtain ⟨y, hy, hyid⟩ := hmem
      have hytail : y ∈ xs := by
        rcases List.mem_cons.mp hy with rfl | ht
        · exact absurd hyid hx
        · exact ht
      obtain ⟨w, hfind, hwid, hwval⟩ := ih ⟨y, hytail, hyid⟩
      refine ⟨w, ?_, hwid, hwval⟩
      simpa [hx] using hfind

/-- The invariant of the spec's data model: at most one active vote per
(participant, comment) pair. -/
def atMostOneVotePerPair (s : DBState) : Prop :=
  ∀ uid tid : Nat,
    s.votes.countP (fun w => w.user_id == uid && w.comment_id == tid) ≤ 1

/-- C3: last vote wins.  When a vote by the user on the comment already
exists, `POST /votes` updates that vote's value in place — the response
carries the existing vote id and the new value, the post-state vote table is
the old one with just that row's value replaced, and its length is unchanged
(no second row).  Moreover every `POST /votes` call, on any input, preserves
the at-most-one-active-vote-per-(participant, comment) invariant. -/
theorem vote_overwrite_in_place (s : DBState) (uid : Nat) (cid : String)
    (tid : Nat) (v : Int) :
    (∀ zid existing,
        (v = -1 ∨ v = 0 ∨ v = 1) →
        get_zid_by_zinvite s cid = some zid →
        get_vote_by_user_comment s uid tid = some existing →
        ∃ out s', create_vote_route s uid cid tid v = (.ok out, s') ∧
          out.vid = existing.id ∧ out.vote = v ∧
          s'.votes = s.votes.map
            (fun w => if w.id == existing.id then { w with value := v } else w) ∧
          s'.votes.length = s.votes.length) ∧
    (atMostOneVotePerPair s →
      atMostOneVotePerPair (create_vote_route s uid cid tid v).2) := by
  constructor
  · intro zid existing hv hz hex
    have hb : (v == -1 || v == 0 || v == 1) = true := by
      rcases hv with rfl | rfl | rfl <;> rfl
    have hvotes := get_or_create_participant_votes s zid uid
    have hex2 : get_vote_by_user_comment (get_or_create_participant s zid uid).2 uid tid
        = some existing := by
      rw [get_vote_of_votes_eq hvotes uid tid]
      exact hex
    have hmem : ∃ x ∈ s.votes, x.id = existing.id :=
      ⟨existing, List.mem_of_find?_eq_some hex, rfl⟩
    obtain ⟨w, hfind, hwid, hwval⟩ := find_updated_vote s.votes existing.id v hmem
    refine ⟨⟨w.id, (get_or_create_participant s zid uid).1.pid, tid, w.value⟩,
      (db_update_vote (get_or_create_participant s zid uid).2 existing.id v).2,
      ?_, hwid, hwval, ?_, ?_⟩
    · simp only [create_vote_route, hb, Bool.not_true, Bool.false_eq_true, if_false,
        hz, hex2]
      simp only [db_update_vote, hvotes, hfind]
    · simp only [db_update_vote, hvotes]
    · simp only [db_update_vote, hvotes, List.length_map]
  · intro hinv
    by_cases hb : (v == -1 || v == 0 || v == 1) = true
    · cases hz : get_zid_by_zinvite s cid with
      | none =>
        have hst : (create_vote_route s uid cid tid v).2 = s := by
          simp [create_vote_route, hb, hz]
        rw [hst]
        exact hinv
      | some zid =>
        have hvotes := get_or_create_participant_votes s zid uid
        cases hex : get_vote_by_user_comment (get_or_create_participant s zid uid).2
            uid tid with
        | some existing =>
          intro uid' tid'
          have hstate : (create_vote_route s uid cid tid v).2.votes
              = s.votes.map
                (fun w => if w.id == existing.id then { w with value := v } else w) := by
            simp only [create_vote_route, hb, Bool.not_true, Bool.false_eq_true, if_false,
              hz, hex]
            simp only [db_update_vote, hvotes]
          rw [hstate, List.countP_map]
          have hcong : s.votes.countP
              ((fun w : Vote => w.user_id == uid' && w.comment_id == tid') ∘
               (fun w => if w.id == existing.id then { w with value := v } else w))
              = s.votes.countP (fun w => w.user_id == uid' && w.comment_id == tid') := by
            apply List.countP_congr
            intro x _
            by_cases hid : x.id = existing.id <;> simp [hid]
          rw [hcong]
          exact hinv uid' tid'
        | none =>
          intro uid' tid'
          have hstate : (create_vote_route s uid cid tid v).2.votes
              = s.votes ++ [⟨(get_or_create_participant s zid uid).2.nextVoteId,
                             uid, tid, v⟩] := by
            simp only [create_vote_route, hb, Bool.not_true, Bool.false_eq_true, if_false,
              hz, hex]
            simp only [db_create_vote, increment_vote_count, hvotes]
          have hnone : get_vote_by_user_comment s uid tid = none := by
            rw [← get_vote_of_votes_eq hvotes uid tid]
            exact hex
          rw [hstate, List.countP_append]
          by_cases hpair : uid' = uid ∧ tid' = tid
          · obtain ⟨rfl, rfl⟩ := hpair
            have h0 : s.votes.countP
                (fun w => w.user_id == uid' && w.comment_id == tid') = 0 := by
              rw [List.countP_eq_zero]
              exact List.find?_eq_none.mp hnone
            rw [h0]
            simp [List.countP_cons]
          · have h1 : List.countP
                (fun w => w.user_id == uid' && w.comment_id == tid')
                ([⟨(get_or_create_participant s zid uid).2.nextVoteId, uid, tid, v⟩] :
                  List Vote)
                = 0 := by
              rw [List.countP_eq_zero]
              intro a ha
              rcases List.mem_singleton.mp ha with rfl
              simp only [Bool.and_eq_true, beq_iff_eq]
              rintro ⟨rfl, rfl⟩
              exact hpair ⟨rfl, rfl⟩
            rw [h1]
            simpa using hinv uid' tid'
    · have hst : (create_vote_route s uid cid tid v).2 = s := by
        simp only [Bool.not_eq_true] at hb
        simp [create_vote_route, hb]
      rw [hst]
      exact hinv

/-- Witness for C3 on `sampleVotedDB`: re-voting -1 on comment 42 updates
vote 1 in place, and the invariant survives the call. -/
theorem vote_overwrite_in_place_witness :
    (∃ out s', create_vote_route sampleVotedDB 1 "conv1" 42 (-1) = (.ok out, s') ∧
      out.vid = (1 : Nat) ∧ out.vote = (-1 : Int) ∧
      s'.votes = sampleVotedDB.votes.map
        (fun w => if w.id == (1 : Nat) then { w with value := (-1 : Int) } else w) ∧
      s'.votes.length = sampleVotedDB.votes.length) ∧
    atMostOneVotePerPair (create_vote_route sampleVotedDB 1 "conv1" 42 (-1)).2 := by
  have h := vote_overwrite_in_place sampleVotedDB 1 "conv1" 42 (-1)
  refine ⟨h.1 7 ⟨1, 1, 42, 1⟩ (Or.inl rfl) (by decide) (by decide), h.2 ?_⟩
  intro uid tid
  calc sampleVotedDB.votes.countP
        (fun w => w.user_id == uid && w.comment_id == tid)
      ≤ sampleVotedDB.votes.length := List.countP_le_length _
    _ ≤ 1 := by decide

/-- The total of all participant vote counters: the fingerprint analogue of
the spec. -/
def totalVoteCount (s : DBState) : Nat :=
  (s.participants.map Participant.vote_count).sum

/-- Incrementing the counter of `pid` raises the counter total by the number
of participants carrying that pid. -/
lemma sum_vote_count_bump (l : List Participant) (pid : Nat) :
    ((l.map fun q => if q.pid == pid then { q with vote_count := q.vote_count + 1 } else q).map
        Participant.vote_count).sum
      = (l.map Participant.vote_count).sum + l.countP (fun q => q.pid == pid) := by
  induction l with
  | nil => rfl
  | cons x xs ih =>
    simp only [List.map_cons, List.sum_cons, List.countP_cons]
    rw [ih]
    by_cases hx : x.pid = pid
    · have hb : (x.pid == pid) = true := by simp [hx]
      simp only [hb, if_true]
      show x.vote_count + 1 + _ = x.vote_count + _ + _
      omega
    · have hb : (x.pid == pid) = false := by simp [hx]
      simp only [hb, Bool.false_eq_true, if_false]
      omega

/-- With pairwise distinct pids, a member's pid occurs exactly once. -/
lemma countP_pid_eq_one (l : List Participant) (p : Participant)
    (hmem : p ∈ l) (hnodup : (l.map Participant.pid).Nodup) :
    l.countP (fun q => q.pid == p.pid) = 1 := by
  have h1 : (l.map Participant.pid).count p.pid = 1 :=
    List.count_eq_one_of_mem hnodup (List.mem_map_of_mem _ hmem)
  have h2 : (l.map Participant.pid).countP (fun x => x == p.pid) = 1 := h1
  rwa [List.countP_map] at h2

/-- When the store already holds the caller's vote row with the submitted
value, and the in-place update as well as the lookup of the updated row act
as identities on the vote table, `POST /votes` answers ok and returns the
store unchanged. -/
lemma vote_update_noop (s0 : DBState) (uid : Nat) (cid : String) (tid : Nat)
    (v : Int) (zid : Nat) (q : Participant) (nv : Vote)
    (hb : (v == -1 || v == 0 || v == 1) = true)
    (hz : get_zid_by_zinvite s0 cid = some zid)
    (hq : get_participant_by_zid_uid s0 zid uid = some q)
    (hvote : get_vote_by_user_comment s0 uid tid = some nv)
    (hmap : s0.votes.map (fun w => if w.id == nv.id then { w with value := v } else w)
        = s0.votes)
    (hfind : s0.votes.find? (fun w => w.id == nv.id) = some nv) :
    create_vote_route s0 uid cid tid v = (.ok ⟨nv.id, q.pid, tid, nv.value⟩, s0) := by
  simp only [create_vote_route, hb, Bool.not_true, Bool.false_eq_true, if_false, hz]
  simp only [get_or_create_participant, hq, hvote, db_update_vote]
  simp only [hmap, hfind]

/-- Updating the value at a fresh id affects only the appended row, which
already carries that value. -/
lemma map_update_fresh (l : List Vote) (n uid tid : Nat) (v : Int)
    (hfr : ∀ w ∈ l, w.id < n) :
    (l ++ [(⟨n, uid, tid, v⟩ : Vote)]).map
        (fun w => if w.id == n then { w with value := v } else w)
      = l ++ [(⟨n, uid, tid, v⟩ : Vote)] := by
  rw [List.map_append]
  have hleft : l.map (fun w => if w.id == n then { w with value := v } else w) = l := by
    calc l.map (fun w => if w.id == n then { w with value := v } else w)
        = l.map id := List.map_congr_left (by
          intro w hw
          have hne : w.id ≠ n := Nat.ne_of_lt (hfr w hw)
          simp [hne])
      _ = l := List.map_id l
  rw [hleft]
  simp

/-- With all ids below `n`, the lookup by id `n` in the appended table finds
exactly the appended row. -/
lemma find_fresh_append (l : List Vote) (n uid tid : Nat) (v : Int)
    (hfr : ∀ w ∈ l, w.id < n) :
    (l ++ [(⟨n, uid, tid, v⟩ : Vote)]).find? (fun w => w.id == n)
      = some ⟨n, uid, tid, v⟩ := by
  rw [List.find?_append]
  have hl : l.find? (fun w => w.id == n) = none := by
    rw [List.find?_eq_none]
    intro w hw
    have hne : w.id ≠ n := Nat.ne_of_lt (hfr w hw)
    simp [hne]
  rw [hl]
  show ([(⟨n, uid, tid, v⟩ : Vote)]).find? (fun w => w.id == n) = _
  exact List.find?_cons_of_pos _ (by simp)

/-- C4: duplicate identical votes are idempotent.  Starting from a store in
which the user has not yet voted on the comment, the first `POST /votes`
stores the vote and raises the participant counter total by exactly one; the
second, identical `POST /votes` answers ok and returns the store completely
unchanged — the stored vote value stays the value of the first application
and no further counter increment happens. -/
theorem duplicate_vote_idempotent (s : DBState) (uid : Nat) (cid : String)
    (tid : Nat) (v : Int) (zid : Nat) (p : Participant)
    (hv : v = -1 ∨ v = 0 ∨ v = 1)
    (hz : get_zid_by_zinvite s cid = some zid)
    (hpart : get_participant_by_zid_uid s zid uid = some p)
    (hnone : get_vote_by_user_comment s uid tid = none)
    (hfresh : ∀ w ∈ s.votes, w.id < s.nextVoteId)
    (hnodup : (s.participants.map Participant.pid).Nodup) :
    totalVoteCount (create_vote_route s uid cid tid v).2 = totalVoteCount s + 1 ∧
    get_vote_by_user_comment (create_vote_route s uid cid tid v).2 uid tid
      = some ⟨s.nextVoteId, uid, tid, v⟩ ∧
    create_vote_route (create_vote_route s uid cid tid v).2 uid cid tid v
      = (.ok ⟨s.nextVoteId, p.pid, tid, v⟩, (create_vote_route s uid cid tid v).2) := by
  have hb : (v == -1 || v == 0 || v == 1) = true := by
    rcases hv with rfl | rfl | rfl <;> rfl
  have hpmem : p ∈ s.participants := List.mem_of_find?_eq_some hpart
  have hpart' : s.participants.find? (fun q => q.zid == zid && q.uid == uid)
      = some p := hpart
  have hroute1 : create_vote_route s uid cid tid v
      = (.ok ⟨s.nextVoteId, p.pid, tid, v⟩,
         { s with
           votes := s.votes ++ [(⟨s.nextVoteId, uid, tid, v⟩ : Vote)],
           participants := s.participants.map
             (fun q => if q.pid == p.pid then { q with vote_count := q.vote_count + 1 } else q),
           nextVoteId := s.nextVoteId + 1 }) := by
    simp only [create_vote_route, hb, Bool.not_true, Bool.false_eq_true, if_false, hz]
    simp only [get_or_create_participant, hpart, hnone, db_create_vote,
      increment_vote_count]
  have hnone' : s.votes.find? (fun w => w.user_id == uid && w.comment_id == tid)
      = none := hnone
  have h2find : (s.votes ++ [(⟨s.nextVoteId, uid, tid, v⟩ : Vote)]).find?
      (fun w => w.user_id == uid && w.comment_id == tid)
      = some (⟨s.nextVoteId, uid, tid, v⟩ : Vote) := by
    rw [List.find?_append, hnone']
    show ([(⟨s.nextVoteId, uid, tid, v⟩ : Vote)]).find?
        (fun w => w.user_id == uid && w.comment_id == tid) = _
    exact List.find?_cons_of_pos _ (by simp)
  rw [hroute1]
  refine ⟨?_, h2find, ?_⟩
  · show ((s.participants.map
        (fun q => if q.pid == p.pid then { q with vote_count := q.vote_count + 1 } else q)).map
          Participant.vote_count).sum = totalVoteCount s + 1
    rw [sum_vote_count_bump, countP_pid_eq_one s.participants p hpmem hnodup]
    rfl
  · refine vote_update_noop _ uid cid tid v zid
      (⟨p.pid, p.zid, p.uid, p.vote_count + 1⟩ : Participant)
      (⟨s.nextVoteId, uid, tid, v⟩ : Vote) hb hz ?_ h2find ?_ ?_
    · show (s.participants.map
          (fun q => if q.pid == p.pid then { q with vote_count := q.vote_count + 1 } else q)).find?
            (fun q => q.zid == zid && q.uid == uid)
          = some (⟨p.pid, p.zid, p.uid, p.vote_count + 1⟩ : Participant)
      rw [List.find?_map]
      have hcomp : ((fun q : Participant => q.zid == zid && q.uid == uid) ∘
          (fun q => if q.pid == p.pid then { q with vote_count := q.vote_count + 1 } else q))
          = fun q : Participant => q.zid == zid && q.uid == uid := by
        funext q
        by_cases hq : q.pid = p.pid <;> simp [hq]
      rw [hcomp, hpart']
      simp
    · exact map_update_fresh s.votes s.nextVoteId uid tid v hfresh
    · exact find_fresh_append s.votes s.nextVoteId uid tid v hfresh

/-- Witness for C4 on `sampleDB`: user 1 votes +1 twice on comment 42. -/
theorem duplicate_vote_idempotent_witness :
    totalVoteCount (create_vote_route sampleDB 1 "conv1" 42 1).2
      = totalVoteCount sampleDB + 1 ∧
    get_vote_by_user_comment (create_vote_route sampleDB 1 "conv1" 42 1).2 1 42
      = some ⟨1, 1, 42, 1⟩ ∧
    create_vote_route (create_vote_route sampleDB 1 "conv1" 42 1).2 1 "conv1" 42 1
      = (.ok ⟨1, 1, 42, 1⟩, (create_vote_route sampleDB 1 "conv1" 42 1).2) :=
  duplicate_vote_idempotent sampleDB 1 "conv1" 42 1 7 ⟨1, 7, 1, 0⟩
    (Or.inr (Or.inr rfl)) (by decide) (by decide) (by decide)
    (by intro w hw; simp [sampleDB] at hw) (by decide)

/-! ## The correlation-matrix endpoint (`GET /math/correlationMatrix`)

The repository ships tests for this endpoint
(`tests/test_correlationMatrix.py`) but no implementation appears in the
sources, so the computation below is modelled from the spec (section 6): a
"pairwise comment-correlation matrix (symmetric, diagonal = 1.0), derived
from the same dense matrix using Pearson correlation between comment
columns, computed only from participants who voted on both comments
(pairwise-complete)". -/

/-- Modelled from the spec: the sparse vote snapshot the missing
correlation-matrix computation consumes — (participant, comment, value)
triples. -/
abbrev VoteTable := List (Nat × Nat × ℚ)

/-- Modelled from the spec: the matrix cell of a participant and comment. -/
def voteOf (tbl : VoteTable) (pa c : Nat) : Option ℚ :=
  (tbl.find? (fun e => e.1 == pa && e.2.1 == c)).map (fun e => e.2.2)

/-- Modelled from the spec: the participants present in the snapshot. -/
def participantsOf (tbl : VoteTable) : List Nat :=
  (tbl.map (fun e => e.1)).dedup

/-- Modelled from the spec: the pairwise-complete participants of a comment
pair — those who voted on both comments. -/
def pairVoters (tbl : VoteTable) (c1 c2 : Nat) : List Nat :=
  (participantsOf tbl).filter
    (fun pa => (voteOf tbl pa c1).isSome && (voteOf tbl pa c2).isSome)

/-- The column of values of comment `c` at the given participants (the
`getD` default is never hit for pairwise-complete participants). -/
def colVals (tbl : VoteTable) (ps : List Nat) (c : Nat) : List ℚ :=
  ps.map (fun pa => (voteOf tbl pa c).getD 0)

/-- The arithmetic mean; 0 for the empty column by the division
convention. -/
def listMean (xs : List ℚ) : ℚ :=
  xs.sum / xs.length

/-- Deviations from the column mean. -/
def centered (xs : List ℚ) : List ℚ :=
  xs.map (fun x => x - listMean xs)

/-- The inner product of two aligned columns. -/
def dotList (xs ys : List ℚ) : ℚ :=
  ((xs.zip ys).map (fun q => q.1 * q.2)).sum

/-- Modelled from the spec: the Pearson sums (Sxy, Sxx, Syy) of a comment
pair over its pairwise-complete participants. -/
def pearsonParts (tbl : VoteTable) (c1 c2 : Nat) : ℚ × ℚ × ℚ :=
  let ps := pairVoters tbl c1 c2
  let xs := centered (colVals tbl ps c1)
  let ys := centered (colVals tbl ps c2)
  (dotList xs ys, dotList xs xs, dotList ys ys)

/-- Modelled from the spec: the correlation-matrix entry of a comment pair,
Pearson r = Sxy / sqrt(Sxx * Syy) over the pairwise-complete participants.
Division by zero yields 0, the degenerate entry of a constant column. -/
noncomputable def correlationMatrix (tbl : VoteTable) (c1 c2 : Nat) : ℝ :=
  ((pearsonParts tbl c1 c2).1 : ℝ)
    / Real.sqrt (((pearsonParts tbl c1 c2).2.1 : ℝ) * ((pearsonParts tbl c1 c2).2.2 : ℝ))

/-- The pairwise-complete voter list is symmetric in the comment pair. -/
lemma pairVoters_symm (tbl : VoteTable) (c1 c2 : Nat) :
    pairVoters tbl c1 c2 = pairVoters tbl c2 c1 := by
  unfold pairVoters
  apply List.filter_congr
  intro pa _
  exact Bool.and_comm _ _

/-- The inner product is commutative. -/
lemma dotList_comm (xs ys : List ℚ) : dotList xs ys = dotList ys xs := by
  induction xs generalizing ys with
  | nil => cases ys <;> rfl
  | cons x xs ih =>
    cases ys with
    | nil => rfl
    | cons y ys =>
      simp only [dotList, List.zip_cons_cons, List.map_cons, List.sum_cons]
      have hih := ih ys
      simp only [dotList] at hih
      rw [mul_comm, hih]

/-- A column's inner product with itself is nonnegative. -/
lemma dotList_self_nonneg (xs : List ℚ) : 0 ≤ dotList xs xs := by
  induction xs with
  | nil => simp [dotList]
  | cons x xs ih =>
    simp only [dotList, List.zip_cons_cons, List.map_cons, List.sum_cons] at ih ⊢
    nlinarith [mul_self_nonneg x]

/-- A concrete snapshot: one participant voting +1 on comment 0. -/
def corrTbl0 : VoteTable := [(0, 0, 1)]

/-- A concrete snapshot: two participants voting +1 and -1 on comment 0. -/
def corrTbl1 : VoteTable := [(0, 0, 1), (1, 0, -1)]

/-- C5 (counterexample): in the snapshot `corrTbl0`, comment 0 has a
nonempty pairwise-complete voter set, yet its diagonal correlation entry is
0 and not 1.0 — with a single (hence constant) vote column, the centered sum
of squares vanishes and Pearson r degenerates instead of being 1.0 as the
claim states. -/
theorem correlation_diagonal_counterexample :
    pairVoters corrTbl0 0 0 ≠ [] ∧ correlationMatrix corrTbl0 0 0 ≠ 1 := by
  have h1 : pairVoters corrTbl0 0 0 = [0] := rfl
  have h2 : colVals corrTbl0 [0] 0 = [1] := rfl
  have h3 : listMean [(1 : ℚ)] = 1 := by norm_num [listMean]
  have h4 : centered [(1 : ℚ)] = [0] := by simp [centered, h3]
  have h5 : dotList [(0 : ℚ)] [0] = 0 := by norm_num [dotList]
  have hp : pearsonParts corrTbl0 0 0 = (0, 0, 0) := by
    simp only [pearsonParts, h1, h2, h4, h5]
  have hc : correlationMatrix corrTbl0 0 0 = 0 := by
    unfold correlationMatrix
    rw [hp]
    norm_num
  constructor
  · rw [h1]
    simp
  · rw [hc]
    norm_num

/-- C5 (amended): the spec-modelled pairwise-complete Pearson correlation
matrix is symmetric for every comment pair, and its diagonal entry equals
1.0 for every comment whose pairwise-complete value column is non-constant
(nonzero centered sum of squares); a constant or single-vote column
degenerates to an undefined entry (0 by the division convention) instead.
The endpoint itself is absent from the sources — only its tests exist — so
the computation is modelled from the spec. -/
theorem correlation_symmetric_unit_diagonal (tbl : VoteTable) (c1 c2 c : Nat)
    (hc : (pearsonParts tbl c c).2.1 ≠ 0) :
    correlationMatrix tbl c1 c2 = correlationMatrix tbl c2 c1 ∧
    correlationMatrix tbl c c = 1 := by
  constructor
  · have hps : pairVoters tbl c2 c1 = pairVoters tbl c1 c2 :=
      (pairVoters_symm tbl c1 c2).symm
    have hx : pearsonParts tbl c1 c2
        = (dotList (centered (colVals tbl (pairVoters tbl c1 c2) c1))
             (centered (colVals tbl (pairVoters tbl c1 c2) c2)),
           dotList (centered (colVals tbl (pairVoters tbl c1 c2) c1))
             (centered (colVals tbl (pairVoters tbl c1 c2) c1)),
           dotList (centered (colVals tbl (pairVoters tbl c1 c2) c2))
             (centered (colVals tbl (pairVoters tbl c1 c2) c2))) := rfl
    have hy : pearsonParts tbl c2 c1
        = (dotList (centered (colVals tbl (pairVoters tbl c1 c2) c2))
             (centered (colVals tbl (pairVoters tbl c1 c2) c1)),
           dotList (centered (colVals tbl (pairVoters tbl c1 c2) c2))
             (centered (colVals tbl (pairVoters tbl c1 c2) c2)),
           dotList (centered (colVals tbl (pairVoters tbl c1 c2) c1))
             (centered (colVals tbl (pairVoters tbl c1 c2) c1))) := by
      simp only [pearsonParts, hps]
    unfold correlationMatrix
    rw [hx, hy]
    rw [dotList_comm]
    rw [mul_comm (((dotList (centered (colVals tbl (pairVoters tbl c1 c2) c1))
      (centered (colVals tbl (pairVoters tbl c1 c2) c1)) : ℚ) : ℝ))]
  · have hq : (pearsonParts tbl c c).1 = (pearsonParts tbl c c).2.1 := rfl
    have hq2 : (pearsonParts tbl c c).2.2 = (pearsonParts tbl c c).2.1 := rfl
    have hnn : 0 ≤ (pearsonParts tbl c c).2.1 := dotList_self_nonneg _
    have hpos : (0 : ℚ) < (pearsonParts tbl c c).2.1 :=
      lt_of_le_of_ne hnn (Ne.symm hc)
    have hposR : (0 : ℝ) < ((pearsonParts tbl c c).2.1 : ℝ) := by
      exact_mod_cast hpos
    unfold correlationMatrix
    rw [hq, hq2, Real.sqrt_mul_self (le_of_lt hposR)]
    exact div_self (ne_of_gt hposR)

/-- Witness for the amended C5 on `corrTbl1`: comment 0's column is [1, -1],
whose centered sum of squares is 2. -/
theorem correlation_symmetric_unit_diagonal_witness :
    correlationMatrix corrTbl1 0 1 = correlationMatrix corrTbl1 1 0 ∧
    correlationMatrix corrTbl1 0 0 = 1 := by
  have h1 : pairVoters corrTbl1 0 0 = [0, 1] := rfl
  have h2 : colVals corrTbl1 [0, 1] 0 = [1, -1] := rfl
  have h3 : listMean [(1 : ℚ), -1] = 0 := by norm_num [listMean]
  have h4 : centered [(1 : ℚ), -1] = [1, -1] := by
    simp [centered, h3]
  have h5 : dotList [(1 : ℚ), -1] [1, -1] = 2 := by norm_num [dotList]
  have hc : (pearsonParts corrTbl1 0 0).2.1 ≠ 0 := by
    have hp : (pearsonParts corrTbl1 0 0).2.1 = 2 := by
      simp only [pearsonParts, h1, h2, h4, h5]
    rw [hp]
    norm_num
  exact correlation_symmetric_unit_diagonal corrTbl1 0 1 0 hc

end LitePolis
